import Mathlib

/-!
Shallow embedding of the generation core of `src/llama/generation_cn_comment.py`
(the Llama 2 batched autoregressive decoder, nucleus sampler and dialog encoder).

Modelling conventions:
* token ids are `Int` (Python ints; the tokenizer's `pad_id` is `-1`);
* probabilities and logits are `ℚ` (exact rationals standing for the float values);
* the scoring model (`self.model.forward`) is an external collaborator and is a
  function parameter `fwd : List (List Int) → Nat → List (List (List ℚ))`
  mapping a (rows × slice) token grid and a start offset to per-row, per-position
  vocabulary logit vectors;
* the two transcendental kernels of torch — per-element `F.cross_entropy`
  (log-softmax at a target index) and `torch.softmax(x / temperature)` — are
  opaque numeric kernels stored in the `Llama` structure (`ceLoss`, `softmaxT`);
  the structure around them (which positions are scored against which targets,
  the `ignore_index=pad_id` semantics, masking, renormalization) is modelled
  exactly;
* `torch.multinomial(probs, 1)` consumes one uniform draw; randomness is made
  explicit as a stream `us : Nat → ℚ` of uniform samples, one per decoding step,
  turned into an index by inverse-CDF search;
* a 2-D tensor is embedded as a function `Nat → Nat → _` plus explicit
  `bsz`/`total_len` bounds (the code never reads out of range); rows are
  materialized back to lists where the Python code calls `.tolist()`;
* Python `assert`/`IndexError`/`ValueError` failure is an `Except` error value.
-/

/-- Tokenizer / model configuration carried by the model (`self.model.params`). -/
structure LlamaParams where
  max_seq_len : Nat
  max_batch_size : Nat

/-- The `Llama` object: configuration, tokenizer capabilities and the two opaque
numeric kernels used by generation. -/
structure Llama where
  params : LlamaParams
  pad_id : Int
  eos_id : Int
  encode : String → Bool → Bool → List Int
  decode : List Int → String
  /-- opaque kernel: one element of `F.cross_entropy(logits, target)`,
  i.e. `-log softmax(logitRow)[target]`. -/
  ceLoss : List ℚ → Int → ℚ
  /-- opaque kernel: `torch.softmax(logitRow / temperature)`. -/
  softmaxT : List ℚ → ℚ → List ℚ

/- ------------------------------------------------------------------ -/
/- Nucleus sampler (`sample_top_p`, source lines 504-546)              -/
/- ------------------------------------------------------------------ -/

/-- Running prefix sums starting from accumulator `acc`
(`torch.cumsum(probs_sort, dim=-1)` shifted by `acc`). -/
def cumFrom (acc : ℚ) : List ℚ → List ℚ
  | [] => []
  | v :: rest => (acc + v) :: cumFrom (acc + v) rest

/-- `torch.cumsum(l, dim=-1)`. -/
def cumSum (l : List ℚ) : List ℚ := cumFrom 0 l

/-- One row sorted in descending order (`torch.sort(probs, descending=True)`,
values only). -/
def sortDesc (l : List ℚ) : List ℚ := l.insertionSort (fun a b => b ≤ a)

/-- `probs_sort[probs_sum - probs_sort > p] = 0.0` applied to an already sorted
row: every entry whose prefix sum minus the entry itself exceeds `p` is zeroed,
the others are kept. -/
def topPMaskList (p : ℚ) (l : List ℚ) : List ℚ :=
  List.zipWith (fun v c => if p < c - v then 0 else v) l (cumSum l)

/-- `probs_sort.div_(probs_sort.sum(dim=-1, keepdim=True))`. -/
def renormalize (l : List ℚ) : List ℚ := l.map (fun v => v / l.sum)

/-- Inverse-CDF search: index of the first entry whose cumulative weight reaches
the uniform draw `u` (model of `torch.multinomial(probs, num_samples=1)`). -/
def invCdfAux (u : ℚ) (acc : ℚ) (i : Nat) : List ℚ → Nat
  | [] => i
  | w :: rest => if u ≤ acc + w then i else invCdfAux u (acc + w) (i + 1) rest

/-- `sample_top_p(probs, p)` for one batch row, with the multinomial draw made
explicit through the uniform sample `u`: sort descending keeping the original
indices, mask by cumulative mass, renormalize, draw, and map the drawn rank back
to the original vocabulary index (`torch.gather(probs_idx, -1, next_token)`). -/
def sample_top_p (probs : List ℚ) (p : ℚ) (u : ℚ) : Int :=
  let pairs := probs.enum.map (fun ia => (ia.2, ia.1))
  let sorted := pairs.insertionSort (fun a b => b.1 ≤ a.1)
  let vals := sorted.map Prod.fst
  let renormed := renormalize (topPMaskList p vals)
  ((sorted.getD (invCdfAux u 0 0 renormed) (0, 0)).2 : Int)

/-- `torch.argmax(row)`: index of the first maximal entry. -/
def argmaxAux (best : ℚ) (bestIdx : Nat) (i : Nat) : List ℚ → Nat
  | [] => bestIdx
  | v :: rest => if best < v then argmaxAux v i (i + 1) rest else argmaxAux best bestIdx (i + 1) rest

/-- `torch.argmax(logits[:, -1], dim=-1)` for one row. -/
def argmaxIdx : List ℚ → Int
  | [] => 0
  | v :: rest => (argmaxAux v 0 1 rest : Nat)

/- ------------------------------------------------------------------ -/
/- Batched decoder (`Llama.generate`, source lines 194-310)            -/
/- ------------------------------------------------------------------ -/

/-- `min(len(t) for t in prompt_tokens)` (Python `min` of a nonempty sequence;
`0` on the empty batch, which the code turns into a `ValueError`). -/
def listMin : List Nat → Nat
  | [] => 0
  | a :: rest => rest.foldl min a

/-- `max(len(t) for t in prompt_tokens)`. -/
def listMax (l : List Nat) : Nat := l.foldl max 0

/-- The token grid right after initialization (source lines 239-245): a
`(bsz, total_len)` tensor full of `pad_id` with each row's prompt overlaid on
its first `len(t)` columns.  Embedded as a total function; the code only reads
columns `< total_len`, and prompts never exceed `total_len`. -/
def initGridFun (pad : Int) (prompts : List (List Int)) (r j : Nat) : Int :=
  let t := prompts.getD r []
  if j < t.length then t.getD j 0 else pad

/-- `input_text_mask = tokens != pad_id` (source line 251), read at `(r, j)`
against the grid as initialized. -/
def input_text_mask (g0 : Nat → Nat → Int) (pad : Int) (r j : Nat) : Bool :=
  g0 r j != pad

/-- Mutable decoding state: the token grid, the log-probability grid,
`eos_reached`, and the two cursors. -/
structure GenState where
  tokens : Nat → Nat → Int
  logps : Nat → Nat → ℚ
  eos : Nat → Bool
  prev_pos : Nat
  cur_pos : Nat

instance : Inhabited GenState :=
  ⟨⟨fun _ _ => 0, fun _ _ => 0, fun _ => false, 0, 0⟩⟩

/-- Everything about a `generate` call that stays fixed across loop steps. -/
structure GenCtx where
  L : Llama
  fwd : List (List Int) → Nat → List (List (List ℚ))
  us : Nat → ℚ
  g0 : Nat → Nat → Int
  bsz : Nat
  total_len : Nat
  temperature : ℚ
  top_p : ℚ
  logprobs : Bool

/-- `self.model.forward(tokens[:, prev_pos:cur_pos], prev_pos)`
(source line 262). -/
def fwdSlice (c : GenCtx) (s : GenState) : List (List (List ℚ)) :=
  c.fwd
    ((List.range c.bsz).map (fun r =>
      (List.range (s.cur_pos - s.prev_pos)).map (fun k => s.tokens r (s.prev_pos + k))))
    s.prev_pos

/-- `logits[:, -1]` for row `r`: the logits at the last scored column. -/
def lastLogitsRow (c : GenCtx) (s : GenState) (r : Nat) : List ℚ :=
  (((fwdSlice c s).getD r []).getLast?).getD []

/-- The freshly sampled / argmaxed candidate token for row `r`
(source lines 263-267): nucleus sampling on the temperature-scaled softmax when
`temperature > 0`, else plain argmax, with no random draw consumed. -/
def stepCand (c : GenCtx) (s : GenState) (r : Nat) : Int :=
  if 0 < c.temperature then
    sample_top_p (c.L.softmaxT (lastLogitsRow c s r) c.temperature) c.top_p (c.us s.cur_pos)
  else
    argmaxIdx (lastLogitsRow c s r)

/-- `torch.where(input_text_mask[:, cur_pos], tokens[:, cur_pos], next_token)`
(source lines 271-273): keep the already-known token where the mask says the
column is still prompt, else take the candidate. -/
def stepNext (c : GenCtx) (s : GenState) (r : Nat) : Int :=
  if input_text_mask c.g0 c.L.pad_id r s.cur_pos then s.tokens r s.cur_pos
  else stepCand c s r

/-- One iteration of the decoding loop body (source lines 261-287): write the
realized next tokens into column `cur_pos`, optionally store the negative
cross-entropy of the realized tokens over the newly scored columns
`[prev_pos+1, cur_pos+1)` (targets read from the grid after the write, `pad_id`
targets ignored as zero), update `eos_reached`, and advance the cursors. -/
def decodeStep (c : GenCtx) (s : GenState) : GenState :=
  let tokens' : Nat → Nat → Int := fun r j =>
    if r < c.bsz ∧ j = s.cur_pos then stepNext c s r else s.tokens r j
  let logps' : Nat → Nat → ℚ :=
    if c.logprobs then
      fun r j =>
        if r < c.bsz ∧ s.prev_pos + 1 ≤ j ∧ j < s.cur_pos + 1 then
          let t := tokens' r j
          if t = c.L.pad_id then 0
          else -(c.L.ceLoss (((fwdSlice c s).getD r []).getD (j - (s.prev_pos + 1)) []) t)
        else s.logps r j
    else s.logps
  let eos' : Nat → Bool := fun r =>
    if r < c.bsz then
      s.eos r ||
        ((!(input_text_mask c.g0 c.L.pad_id r s.cur_pos)) && (stepNext c s r == c.L.eos_id))
    else s.eos r
  { tokens := tokens', logps := logps', eos := eos',
    prev_pos := s.cur_pos, cur_pos := s.cur_pos + 1 }

/-- `all(eos_reached)` over the `bsz` rows. -/
def allEos (bsz : Nat) (s : GenState) : Bool :=
  (List.range bsz).all (fun r => s.eos r)

/-- The decoding loop `for cur_pos in range(min_prompt_len, total_len)` with its
sole early-exit `if all(eos_reached): break` (source lines 261-289), fuelled by
the number of remaining columns. -/
def decodeLoop (c : GenCtx) : Nat → GenState → GenState
  | 0, s => s
  | fuel + 1, s =>
    if c.total_len ≤ s.cur_pos then s
    else if allEos c.bsz (decodeStep c s) then decodeStep c s
    else decodeLoop c fuel (decodeStep c s)

/-- Materialize `width` columns of one function-row back into a list. -/
def gridRows (bsz width : Nat) (g : Nat → Nat → Int) : List (List Int) :=
  (List.range bsz).map (fun r => (List.range width).map (fun j => g r j))

/-- The fixed context of one `generate` call (source lines 229-251):
`total_len = min(max_seq_len, max_gen_len + max_prompt_len)`, the initialized
grid, and the sampling parameters. -/
def mkCtx (L : Llama) (fwd : List (List Int) → Nat → List (List (List ℚ))) (us : Nat → ℚ)
    (prompts : List (List Int)) (max_gen_len : Nat) (temperature top_p : ℚ)
    (logprobs : Bool) : GenCtx :=
  { L := L, fwd := fwd, us := us,
    g0 := initGridFun L.pad_id prompts,
    bsz := prompts.length,
    total_len := min L.params.max_seq_len (max_gen_len + listMax (prompts.map List.length)),
    temperature := temperature, top_p := top_p, logprobs := logprobs }

/-- The state before the loop (source lines 246-259): zero logprob grid, all
`eos_reached` false, cursors at `0` / `min_prompt_len`; when
`min_prompt_len == total_len` one full-width scoring pass
`self.model.forward(tokens, 0)` fills the whole logprob grid with
`-F.cross_entropy(..., target=tokens, ignore_index=pad_id)` — note the target at
column `j` is the token at column `j` itself. -/
def initState (c : GenCtx) (minp : Nat) : GenState :=
  let logps1 : Nat → Nat → ℚ :=
    if minp = c.total_len then
      fun r j =>
        let t := c.g0 r j
        if t = c.L.pad_id then 0
        else
          -(c.L.ceLoss
            (((c.fwd (gridRows c.bsz c.total_len c.g0) 0).getD r []).getD j []) t)
    else fun _ _ => 0
  { tokens := c.g0, logps := logps1, eos := fun _ => false, prev_pos := 0, cur_pos := minp }

/-- Everything `generate` does after its precondition asserts: build the
context, run the (possibly empty) decoding loop from `min_prompt_len`. -/
def runLoop (L : Llama) (fwd : List (List Int) → Nat → List (List (List ℚ))) (us : Nat → ℚ)
    (prompts : List (List Int)) (max_gen_len : Nat) (temperature top_p : ℚ)
    (logprobs : Bool) : GenState :=
  decodeLoop (mkCtx L fwd us prompts max_gen_len temperature top_p logprobs)
    ((mkCtx L fwd us prompts max_gen_len temperature top_p logprobs).total_len -
      listMin (prompts.map List.length))
    (initState (mkCtx L fwd us prompts max_gen_len temperature top_p logprobs)
      (listMin (prompts.map List.length)))

/-- Failure modes of `generate`: the two `assert` statements (source lines 231
and 235) and the `ValueError` Python's `min()` raises on an empty batch. -/
inductive GenErr where
  | capacityExceeded
  | emptyBatch
deriving DecidableEq

/-- `Llama.generate` up to (but not including) the per-row trimming: precondition
checks, grid initialization, special full-prompt scoring pass, decoding loop. -/
def generateState (L : Llama) (fwd : List (List Int) → Nat → List (List (List ℚ)))
    (us : Nat → ℚ) (prompts : List (List Int)) (max_gen_len : Nat)
    (temperature top_p : ℚ) (logprobs : Bool) : Except GenErr GenState :=
  if prompts.length ≤ L.params.max_batch_size then
    if prompts.isEmpty then .error .emptyBatch
    else if listMax (prompts.map List.length) ≤ L.params.max_seq_len then
      .ok (runLoop L fwd us prompts max_gen_len temperature top_p logprobs)
    else .error .capacityExceeded
  else .error .capacityExceeded

/-- Index of the first occurrence of `e` (Python `list.index`), `none` when
`e not in l`. -/
def idxOf? (e : Int) : List Int → Option Nat
  | [] => none
  | a :: rest => if a = e then some 0 else (idxOf? e rest).map (· + 1)

/-- `# cut to eos tok if any` (source lines 303-307): truncate both the token
slice and the logprob slice immediately before the first end marker. -/
def eosCut (eos_id : Int) (toks : List Int) (lps : List ℚ) : List Int × List ℚ :=
  match idxOf? eos_id toks with
  | some k => (toks.take k, lps.take k)
  | none => (toks, lps)

/-- Per-row trimming (source lines 293-309): slice `[start : len(prompt)+max_gen_len]`
with `start = 0` when echoing else the prompt length, then cut at the end marker. -/
def trimRow (eos_id : Int) (echo : Bool) (plen max_gen_len : Nat)
    (row : List Int) (lrow : List ℚ) : List Int × List ℚ :=
  let start := if echo then 0 else plen
  eosCut eos_id ((row.drop start).take (plen + max_gen_len - start))
    ((lrow.drop start).take (plen + max_gen_len - start))

/-- `Llama.generate` (source lines 194-310): returns the trimmed token lists and,
when `logprobs` is requested, the matching trimmed logprob lists. -/
def generate (L : Llama) (fwd : List (List Int) → Nat → List (List (List ℚ)))
    (us : Nat → ℚ) (prompt_tokens : List (List Int)) (max_gen_len : Nat)
    (temperature top_p : ℚ) (logprobs echo : Bool) :
    Except GenErr (List (List Int) × Option (List (List ℚ))) :=
  (generateState L fwd us prompt_tokens max_gen_len temperature top_p logprobs).map
    (fun st =>
      let c := mkCtx L fwd us prompt_tokens max_gen_len temperature top_p logprobs
      let outs := (List.range c.bsz).map (fun r =>
        trimRow L.eos_id echo ((prompt_tokens.getD r []).length) max_gen_len
          ((List.range c.total_len).map (fun j => st.tokens r j))
          ((List.range c.total_len).map (fun j => st.logps r j)))
      (outs.map Prod.fst, if logprobs then some (outs.map Prod.snd) else none))

/- ------------------------------------------------------------------ -/
/- Dialog encoder (`Llama.chat_completion`, source lines 372-501)      -/
/- ------------------------------------------------------------------ -/

inductive Role where
  | system
  | user
  | assistant
deriving DecidableEq

structure Message where
  role : Role
  content : String
deriving DecidableEq

def B_INST : String := "[INST]"
def E_INST : String := "[/INST]"
def B_SYS : String := "<<SYS>>\n"
def E_SYS : String := "\n<</SYS>>\n\n"
def SPECIAL_TAGS : List String := [B_INST, E_INST, "<<SYS>>", "<</SYS>>"]
def UNSAFE_ERROR : String := "Error: special tags are not allowed as part of the prompt."

/-- `pat` is a contiguous run at the head of `l`. -/
def startsHere : List Char → List Char → Bool
  | [], _ => true
  | _ :: _, [] => false
  | a :: ps, b :: ls => a == b && startsHere ps ls

/-- `pat` occurs as a contiguous run somewhere in `l`. -/
def hasSub (pat : List Char) : List Char → Bool
  | [] => pat.isEmpty
  | b :: rest => startsHere pat (b :: rest) || hasSub pat rest

/-- Python's `tag in msg["content"]` substring test. -/
def strContains (s pat : String) : Bool := hasSub pat.data s.data

/-- `any(tag in msg["content"] for tag in SPECIAL_TAGS for msg in dialog)`
(source lines 415-423). -/
def tagged (dialog : List Message) : Bool :=
  SPECIAL_TAGS.any (fun tag => dialog.any (fun msg => strContains msg.content tag))

/-- Failure modes of `chat_completion`: the two dialog `assert`s (source lines
436-441 and 456-458), Python `IndexError` on `dialog[0]`/`dialog[1]`, and a
propagated `generate` failure. -/
inductive ChatErr where
  | orderingError
  | terminationError
  | indexError
  | genFail (e : GenErr)
deriving DecidableEq

/-- System-turn merge (source lines 424-435): when the first turn is a system
turn, wrap its content in the system delimiters, prepend it to the second turn's
content, and collapse the pair into one turn carrying the second turn's role. -/
def mergeSystem : List Message → Except ChatErr (List Message)
  | [] => .error .indexError
  | m0 :: rest =>
    if m0.role = Role.system then
      match rest with
      | [] => .error .indexError
      | m1 :: rest2 =>
        .ok ({ role := m1.role, content := B_SYS ++ m0.content ++ E_SYS ++ m1.content } :: rest2)
    else .ok (m0 :: rest)

/-- `dialog[::2]`. -/
def evens {α : Type _} : List α → List α
  | [] => []
  | [a] => [a]
  | a :: _ :: rest => a :: evens rest

/-- `dialog[1::2]`. -/
def odds {α : Type _} : List α → List α
  | [] => []
  | [_] => []
  | _ :: b :: rest => b :: odds rest

/-- The alternation assert (source lines 436-441): every even-indexed turn is a
user turn and every odd-indexed turn is an assistant turn. -/
def alternationOk (d : List Message) : Bool :=
  (evens d).all (fun m => m.role == Role.user) &&
    (odds d).all (fun m => m.role == Role.assistant)

/-- Dialog validation exactly in the source's order: merge the optional leading
system turn, assert alternation (role-ordering error), assert the dialog ends on
a user turn (last-turn error); returns the merged dialog on success. -/
def validateDialog (d : List Message) : Except ChatErr (List Message) :=
  match mergeSystem d with
  | .error e => .error e
  | .ok d' =>
    if alternationOk d' then
      if (d'.getLastD { role := Role.user, content := "" }).role = Role.user then .ok d'
      else .error .terminationError
    else .error .orderingError

/-- Serialization of a validated dialog (source lines 442-463): one
`[INST] user [/INST] assistant ` unit per complete pair, tokenized with both
markers, then the final unanswered user turn tokenized with only the beginning
marker. -/
def encodeDialog (L : Llama) (d : List Message) : List Int :=
  (((evens d).zip (odds d)).map (fun pa =>
    L.encode
      (B_INST ++ " " ++ pa.1.content.trim ++ " " ++ E_INST ++ " " ++ pa.2.content.trim ++ " ")
      true true)).flatten ++
    L.encode
      (B_INST ++ " " ++ (d.getLastD { role := Role.user, content := "" }).content.trim ++ " " ++
        E_INST)
      true false

/-- The prompt-building loop of `chat_completion` (source lines 412-464): per
dialog, record the special-tag flag, validate, serialize; the first failing
dialog aborts the whole call. -/
def chatPromptTokens (L : Llama) : List (List Message) → Except ChatErr (List (List Int) × List Bool)
  | [] => .ok ([], [])
  | d :: rest =>
    match validateDialog d with
    | .error e => .error e
    | .ok d' =>
      match chatPromptTokens L rest with
      | .error e => .error e
      | .ok (pts, flags) => .ok (encodeDialog L d' :: pts, tagged d :: flags)

/-- One chat record (source lines 473-501). -/
structure ChatPrediction where
  generation : Message
  tokens : Option (List String)
  logprobs : Option (List ℚ)
deriving DecidableEq

/-- Record assembly on the logprobs path (source lines 473-490): the generated
text is replaced by the fixed refusal string when the dialog was flagged, while
the token strings and logprobs always reflect the real generated sequence. -/
def zipRecords (L : Llama) : List (List Int) → List (List ℚ) → List Bool → List ChatPrediction
  | t :: ts, g :: gs, u :: rest =>
    { generation := { role := Role.assistant, content := if u then UNSAFE_ERROR else L.decode t },
      tokens := some (t.map (fun x => L.decode [x])),
      logprobs := some g } :: zipRecords L ts gs rest
  | _, _, _ => []

/-- Record assembly without logprobs (source lines 491-501). -/
def plainRecords (L : Llama) : List (List Int) → List Bool → List ChatPrediction
  | t :: ts, u :: rest =>
    { generation := { role := Role.assistant, content := if u then UNSAFE_ERROR else L.decode t },
      tokens := none, logprobs := none } :: plainRecords L ts rest
  | _, _ => []

/-- `Llama.chat_completion` (source lines 372-501). -/
def chat_completion (L : Llama) (fwd : List (List Int) → Nat → List (List (List ℚ)))
    (us : Nat → ℚ) (dialogs : List (List Message)) (temperature top_p : ℚ)
    (max_gen_len : Option Nat) (logprobs : Bool) : Except ChatErr (List ChatPrediction) :=
  let mgl := max_gen_len.getD (L.params.max_seq_len - 1)
  match chatPromptTokens L dialogs with
  | .error e => .error e
  | .ok (pts, flags) =>
    match generate L fwd us pts mgl temperature top_p logprobs false with
    | .error e => .error (.genFail e)
    | .ok (gts, glps) =>
      if logprobs then .ok (zipRecords L gts (glps.getD []) flags)
      else .ok (plainRecords L gts flags)

/- ------------------------------------------------------------------ -/
/- Spec-side definition used to settle the refinement part of C1       -/
/- ------------------------------------------------------------------ -/

/-- The logprob grid as the SPEC's words describe the full-prompt special case:
at each position, the negative log-likelihood of the known NEXT token, i.e. the
token at the FOLLOWING column, ignoring padded positions.  (The code instead
scores the token at the same column; see the C1 theorems.) -/
def specNextColumnGrid (c : GenCtx) (r j : Nat) : ℚ :=
  if c.g0 r j = c.L.pad_id then 0
  else
    -(c.L.ceLoss (((c.fwd (gridRows c.bsz c.total_len c.g0) 0).getD r []).getD j [])
      (c.g0 r (j + 1)))

/- ------------------------------------------------------------------ -/
/- Concrete fixtures for witnesses and counterexamples                 -/
/- ------------------------------------------------------------------ -/

/-- A small concrete `Llama` instance: `pad_id = -1`, `eos_id = 2`,
`max_seq_len = 4`, `max_batch_size = 4`; the cross-entropy kernel returns the
target id itself so stored values are observable. -/
def testL : Llama :=
  { params := { max_seq_len := 4, max_batch_size := 4 },
    pad_id := -1, eos_id := 2,
    encode := fun _ _ _ => [5],
    decode := fun _ => "D",
    ceLoss := fun _ t => (t : ℚ),
    softmaxT := fun l _ => l }

/-- Scoring model whose argmax is always token `3` (vocabulary of size 4). -/
def fwdArg3 : List (List Int) → Nat → List (List (List ℚ)) :=
  fun rows _ => rows.map (fun row => row.map (fun _ => [(0 : ℚ), 0, 0, 1]))

/-- Scoring model whose argmax is always token `2`, the end marker. -/
def fwdEos : List (List Int) → Nat → List (List (List ℚ)) :=
  fun rows _ => rows.map (fun row => row.map (fun _ => [(0 : ℚ), 0, 1]))

/-- Scoring model whose argmax is always token `0` (vocabulary of size 2). -/
def fwdArg0 : List (List Int) → Nat → List (List (List ℚ)) :=
  fun rows _ => rows.map (fun row => row.map (fun _ => [(1 : ℚ), 0]))

/-- A fixed stream of uniform draws (never consumed at temperature 0). -/
def usZero : Nat → ℚ := fun _ => 0

/-- Final state of the C2 counterexample run: two prompts of different lengths,
the longer one containing `pad_id = -1` at an interior position. -/
def c2St : GenState :=
  match generateState testL fwdArg3 usZero [[5], [7, -1, 9]] 1 0 1 false with
  | .ok s => s
  | .error _ => default

/-- Final state of a pad-free run used by the C2 witness. -/
def c2wSt : GenState :=
  match generateState testL fwdArg3 usZero [[5], [7, 8, 9]] 1 0 1 false with
  | .ok s => s
  | .error _ => default

/-- Final state of the C9 counterexample run: the argmax token is the end
marker, and the longer prompt has `pad_id` at an interior position. -/
def c9St : GenState :=
  match generateState testL fwdEos usZero [[5], [7, -1]] 0 0 1 false with
  | .ok s => s
  | .error _ => default

/-- Context of the C1 runs: a batch whose single prompt fills `total_len`. -/
def c1Ctx : GenCtx := mkCtx testL fwdArg3 usZero [[3, 4]] 0 0 1 true

/-- Final state of the C1 counterexample run. -/
def c1St : GenState :=
  match generateState testL fwdArg3 usZero [[3, 4]] 0 0 1 true with
  | .ok s => s
  | .error _ => default

/-- Final state used by the C10 witness run. -/
def c10St : GenState :=
  match generateState testL fwdArg3 usZero [[6], [8, -1, 4]] 1 0 1 false with
  | .ok s => s
  | .error _ => default

/-- Final state of a pad-free run used by the C10 witness. -/
def c10wSt : GenState :=
  match generateState testL fwdArg3 usZero [[6], [8, 7, 4]] 1 0 1 false with
  | .ok s => s
  | .error _ => default

/-- Final state of the C3 witness run (the argmax token is the end marker). -/
def c3St : GenState :=
  match generateState testL fwdEos usZero [[5], [7, 8]] 2 0 1 true with
  | .ok s => s
  | .error _ => default

/-- Concrete context/state pair for step-level witnesses. -/
def c10Ctx : GenCtx := mkCtx testL fwdArg3 usZero [[6], [8, -1, 4]] 1 0 1 false

/-- The state at the start of the first loop iteration of the `c10Ctx` run. -/
def c10S0 : GenState := initState c10Ctx 1

/-- Concrete context/state for the C9 witness. -/
def c9Ctx : GenCtx := mkCtx testL fwdEos usZero [[5], [7, -1]] 0 0 1 false

/-- The state at the start of the first loop iteration of the `c9Ctx` run. -/
def c9S0 : GenState := initState c9Ctx 1

/-- A state with every `eos_reached` flag already set, for the monotonicity
witness. -/
def c9SAll : GenState :=
  { tokens := fun _ _ => 5, logps := fun _ _ => 0, eos := fun _ => true,
    prev_pos := 0, cur_pos := 1 }

def mUser (s : String) : Message := { role := Role.user, content := s }
def mAssistant (s : String) : Message := { role := Role.assistant, content := s }
def mSystem (s : String) : Message := { role := Role.system, content := s }

/-- Projection used to state acceptance in the C6 theorems. -/
def isAccepted {α : Type _} : Except ChatErr α → Bool
  | .ok _ => true
  | .error _ => false

/-- Projection used to state which error fired in the C6 theorems. -/
def errOf {α : Type _} : Except ChatErr α → Option ChatErr
  | .ok _ => none
  | .error e => some e

/-- The single dialog of the C7 witness: its only user message embeds the
instruction-open control tag. -/
def c7Dialogs : List (List Message) := [[mUser "hi [INST] x"]]

/-- Default record used for indexing into chat results. -/
def dRec : ChatPrediction :=
  { generation := { role := Role.user, content := "" }, tokens := none, logprobs := none }

/- ------------------------------------------------------------------ -/
/- Theorems                                                            -/
/- ------------------------------------------------------------------ -/

lemma topPMask_keep_of_sum_le (p : ℚ) (l : List ℚ) : ∀ acc : ℚ,
    (∀ v ∈ l, 0 ≤ v) → acc + l.sum ≤ p →
    List.zipWith (fun v c => if p < c - v then 0 else v) l (cumFrom acc l) = l := by
  induction l with
  | nil => intro acc _ _; rfl
  | cons v rest ih =>
    intro acc hnn hle
    have hv : 0 ≤ v := hnn v (by simp)
    have hrest : 0 ≤ rest.sum := List.sum_nonneg (fun a ha => hnn a (by simp [ha]))
    have hsum : (v :: rest).sum = v + rest.sum := by simp
    rw [hsum] at hle
    have hacc : ¬ p < acc + v - v := by
      have h2 : acc + v - v = acc := by ring
      rw [h2]; linarith
    simp only [cumFrom, List.zipWith_cons_cons]
    rw [if_neg hacc]
    congr 1
    exact ih (acc + v) (fun a ha => hnn a (by simp [ha])) (by linarith)

lemma topPMask_zero_of_lt (p : ℚ) (l : List ℚ) : ∀ acc : ℚ,
    p < acc → (∀ v ∈ l, 0 ≤ v) →
    List.zipWith (fun v c => if p < c - v then 0 else v) l (cumFrom acc l) =
      List.replicate l.length 0 := by
  induction l with
  | nil => intro acc _ _; rfl
  | cons v rest ih =>
    intro acc hacc hnn
    have hv : 0 ≤ v := hnn v (by simp)
    have hcond : p < acc + v - v := by
      have h2 : acc + v - v = acc := by ring
      rw [h2]; exact hacc
    simp only [cumFrom, List.zipWith_cons_cons, List.length_cons, List.replicate_succ]
    rw [if_pos hcond]
    congr 1
    exact ih (acc + v) (by linarith) (fun a ha => hnn a (by simp [ha]))

lemma topPMask_getD_spec (p : ℚ) (l : List ℚ) : ∀ (acc : ℚ) (i : Nat),
    i < l.length → 0 < l.getD i 0 →
    ((List.zipWith (fun v c => if p < c - v then 0 else v) l (cumFrom acc l)).getD i 0 = 0 ↔
      p < (cumFrom acc l).getD i 0 - l.getD i 0) := by
  induction l with
  | nil => intro acc i hi; simp at hi
  | cons v rest ih =>
    intro acc i hi hpos
    cases i with
    | zero =>
      simp only [cumFrom, List.zipWith_cons_cons, List.getD_cons_zero]
      by_cases hc : p < acc + v - v
      · rw [if_pos hc]; exact ⟨fun _ => hc, fun _ => rfl⟩
      · rw [if_neg hc]
        simp only [List.getD_cons_zero] at hpos
        constructor
        · intro h0; exact absurd h0 (ne_of_gt hpos)
        · intro h; exact absurd h hc
    | succ n =>
      simp only [cumFrom, List.zipWith_cons_cons, List.getD_cons_succ]
      exact ih (acc + v) n (by simpa using hi) (by simpa using hpos)

/-- C4: `sample_top_p` zeroes exactly those sorted entries whose prefix sum minus
their own value exceeds `p` (keeping the smallest descending-order prefix whose
cumulative mass reaches `p`), then renormalizes the survivors; consequently, for
`p = 1` and a probability vector summing to `1` no entry is zeroed (and the
renormalized mass is the unchanged distribution), and for `p` smaller than every
individual probability only the single highest-probability entry survives. -/
theorem sample_top_p_mask_spec (probs : List ℚ) (p : ℚ)
    (hne : probs ≠ []) (hpos : ∀ v ∈ probs, 0 < v) :
    (∀ i, i < probs.length →
      ((topPMaskList p (sortDesc probs)).getD i 0 = 0 ↔
        p < (cumSum (sortDesc probs)).getD i 0 - (sortDesc probs).getD i 0)) ∧
    (p = 1 → probs.sum = 1 →
      topPMaskList p (sortDesc probs) = sortDesc probs ∧
      renormalize (topPMaskList p (sortDesc probs)) = sortDesc probs) ∧
    (0 ≤ p → (∀ v ∈ probs, p < v) →
      topPMaskList p (sortDesc probs) =
        (sortDesc probs).headD 0 :: List.replicate (probs.length - 1) 0 ∧
      ∀ v ∈ probs, v ≤ (sortDesc probs).headD 0) := by
  have hperm : List.Perm (sortDesc probs) probs := List.perm_insertionSort _ probs
  have hlen : (sortDesc probs).length = probs.length := hperm.length_eq
  have hsum : (sortDesc probs).sum = probs.sum := hperm.sum_eq
  have hmem : ∀ v ∈ sortDesc probs, v ∈ probs := fun v hv => hperm.subset hv
  refine ⟨?_, ?_, ?_⟩
  · intro i hi
    have hi' : i < (sortDesc probs).length := by rw [hlen]; exact hi
    have hge : 0 < (sortDesc probs).getD i 0 := by
      rw [List.getD_eq_getElem _ _ hi']
      exact hpos _ (hmem _ (List.getElem_mem hi'))
    exact topPMask_getD_spec p (sortDesc probs) 0 i hi' hge
  · intro hp hsum1
    have hkeep : topPMaskList p (sortDesc probs) = sortDesc probs := by
      unfold topPMaskList cumSum
      refine topPMask_keep_of_sum_le p (sortDesc probs) 0
        (fun v hv => le_of_lt (hpos v (hmem v hv))) ?_
      rw [hsum, hsum1, hp]; norm_num
    refine ⟨hkeep, ?_⟩
    rw [hkeep]
    unfold renormalize
    rw [hsum, hsum1]
    simp
  · intro hp0 hlt
    have hsne : sortDesc probs ≠ [] := by
      intro h
      apply hne
      have h0 : probs.length = 0 := by rw [← hlen, h]; rfl
      exact List.length_eq_zero.1 h0
    obtain ⟨v0, rest, hcons⟩ := List.exists_cons_of_ne_nil hsne
    have hv0 : v0 ∈ probs := hmem v0 (by rw [hcons]; simp)
    have hrestnn : ∀ v ∈ rest, 0 ≤ v := fun v hv =>
      le_of_lt (hpos v (hmem v (by rw [hcons]; simp [hv])))
    have hrlen : rest.length = probs.length - 1 := by
      rw [hcons] at hlen; simp at hlen; omega
    constructor
    · unfold topPMaskList cumSum
      rw [hcons]
      simp only [cumFrom, List.zipWith_cons_cons]
      have hc0 : ¬ p < 0 + v0 - v0 := by
        have : (0 : ℚ) + v0 - v0 = 0 := by ring
        rw [this]; linarith
      rw [if_neg hc0, topPMask_zero_of_lt p rest (0 + v0)
        (by have := hlt v0 hv0; linarith) hrestnn, hrlen]
      simp [hcons]
    · haveI : IsTotal ℚ (fun a b : ℚ => b ≤ a) := ⟨fun a b => le_total b a⟩
      haveI : IsTrans ℚ (fun a b : ℚ => b ≤ a) := ⟨fun _ _ _ h1 h2 => le_trans h2 h1⟩
      have hsorted : List.Sorted (fun a b : ℚ => b ≤ a) (sortDesc probs) :=
        List.sorted_insertionSort _ probs
      rw [hcons] at hsorted
      intro v hv
      have hv' : v ∈ sortDesc probs := hperm.symm.subset hv
      rw [hcons] at hv'
      rw [hcons]
      simp only [List.headD_cons]
      rcases List.mem_cons.1 hv' with h | h
      · exact le_of_eq h
      · exact List.rel_of_sorted_cons hsorted v h

/-- Witness for C4: part 1 at `probs = [2, 3, 5]`, `i = 0`; part 2 at
`probs = [1]`, `p = 1` (the unit mass survives unchanged); part 3 at
`probs = [2, 3, 5]`, `p = 1` (smaller than every entry: single survivor). -/
theorem sample_top_p_mask_spec_witness :
    ((topPMaskList 1 (sortDesc [2, 3, 5])).getD 0 0 = 0 ↔
      (1 : ℚ) < (cumSum (sortDesc [2, 3, 5])).getD 0 0 - (sortDesc [2, 3, 5]).getD 0 0) ∧
    (topPMaskList 1 (sortDesc [1]) = sortDesc [1] ∧
      renormalize (topPMaskList 1 (sortDesc [1])) = sortDesc [1]) ∧
    (topPMaskList 1 (sortDesc [2, 3, 5]) =
      (sortDesc [2, 3, 5]).headD 0 :: List.replicate 2 0 ∧
      ∀ v ∈ ([2, 3, 5] : List ℚ), v ≤ (sortDesc [2, 3, 5]).headD 0) :=
  ⟨(sample_top_p_mask_spec [2, 3, 5] 1 (by decide) (by decide)).1 0 (by decide),
   (sample_top_p_mask_spec [1] 1 (by decide) (by decide)).2.1 rfl (by simp),
   (sample_top_p_mask_spec [2, 3, 5] 1 (by decide) (by decide)).2.2 (by decide)
     (by decide)⟩

lemma generateState_ok_inv (L : Llama) (fwd : List (List Int) → Nat → List (List (List ℚ)))
    (us : Nat → ℚ) (ps : List (List Int)) (mgl : Nat) (temp topp : ℚ) (lp : Bool)
    (st : GenState) (h : generateState L fwd us ps mgl temp topp lp = .ok st) :
    st = runLoop L fwd us ps mgl temp topp lp := by
  unfold generateState at h
  by_cases h1 : ps.length ≤ L.params.max_batch_size
  · rw [if_pos h1] at h
    by_cases h2 : ps.isEmpty = true
    · rw [if_pos h2] at h; exact Except.noConfusion h
    · rw [if_neg h2] at h
      by_cases h3 : listMax (ps.map List.length) ≤ L.params.max_seq_len
      · rw [if_pos h3] at h; exact (Except.ok.inj h).symm
      · rw [if_neg h3] at h; exact Except.noConfusion h
  · rw [if_neg h1] at h; exact Except.noConfusion h

/-- C8: `generate` fails immediately whenever the batch size exceeds the
configured maximum batch size or the longest prompt exceeds the configured
maximum sequence length; the whole call is rejected with the same contract
error for every scoring model `fwd` — in particular the result does not depend
on `fwd`, so no scoring-model invocation is issued and there is no partial-batch
processing. -/
theorem generate_capacity_check (L : Llama)
    (fwd : List (List Int) → Nat → List (List (List ℚ))) (us : Nat → ℚ)
    (prompts : List (List Int)) (mgl : Nat) (temp topp : ℚ) (lp echo : Bool)
    (h : L.params.max_batch_size < prompts.length ∨
      L.params.max_seq_len < listMax (prompts.map List.length)) :
    generate L fwd us prompts mgl temp topp lp echo = .error .capacityExceeded := by
  unfold generate generateState
  rcases h with h | h
  · rw [if_neg (not_le.2 h)]; rfl
  · by_cases h1 : prompts.length ≤ L.params.max_batch_size
    · rw [if_pos h1]
      have hne : ¬ (prompts.isEmpty = true) := by
        cases prompts with
        | nil => simp [listMax] at h
        | cons a rest => simp
      rw [if_neg hne, if_neg (not_le.2 h)]; rfl
    · rw [if_neg h1]; rfl

/-- Witness for C8: a batch of five prompts against `max_batch_size = 4`. -/
theorem generate_capacity_check_witness :
    generate testL fwdArg3 usZero [[1], [1], [1], [1], [1]] 1 0 1 false false =
      .error .capacityExceeded :=
  generate_capacity_check testL fwdArg3 usZero [[1], [1], [1], [1], [1]] 1 0 1 false false
    (Or.inl (by decide))

/-- C6 (counterexample): the dialog `[system, user, assistant]` is NOT accepted
by the validation in `chat_completion`: after the system turn is merged into the
user turn the dialog ends on an assistant turn, so the last-turn-must-be-user
assert fires (a last-turn error, not acceptance). -/
theorem dialog_validation_cex :
    isAccepted (validateDialog [mSystem "s", mUser "u", mAssistant "a"]) = false ∧
    errOf (validateDialog [mSystem "s", mUser "u", mAssistant "a"]) =
      some ChatErr.terminationError := by
  constructor
  · rfl
  · rfl

/-- C6 (amended): dialog validation in `chat_completion`: `[user, assistant,
user]` is accepted; `[user, user]` raises a role-ordering error; `[system, user,
assistant]` raises a last-turn-must-be-user error (the system turn is merged
into the user turn, after which the dialog ends on an assistant turn);
`[assistant, user]` raises a role-ordering error; `[system, user]` is accepted;
`[user, assistant]` raises a last-turn-must-be-user error. -/
theorem dialog_validation :
    isAccepted (validateDialog [mUser "u", mAssistant "a", mUser "v"]) = true ∧
    errOf (validateDialog [mUser "u", mUser "v"]) = some ChatErr.orderingError ∧
    errOf (validateDialog [mSystem "s", mUser "u", mAssistant "a"]) =
      some ChatErr.terminationError ∧
    errOf (validateDialog [mAssistant "a", mUser "u"]) = some ChatErr.orderingError ∧
    isAccepted (validateDialog [mSystem "s", mUser "u"]) = true ∧
    errOf (validateDialog [mUser "u", mAssistant "a"]) = some ChatErr.terminationError := by
  refine ⟨rfl, rfl, rfl, rfl, rfl, rfl⟩

lemma decodeStep_tokens (c : GenCtx) (s : GenState) (r j : Nat) :
    (decodeStep c s).tokens r j =
      if r < c.bsz ∧ j = s.cur_pos then stepNext c s r else s.tokens r j := rfl

lemma decodeStep_eos (c : GenCtx) (s : GenState) (r : Nat) :
    (decodeStep c s).eos r =
      if r < c.bsz then
        s.eos r ||
          ((!(input_text_mask c.g0 c.L.pad_id r s.cur_pos)) &&
            (stepNext c s r == c.L.eos_id))
      else s.eos r := rfl

lemma decodeStep_masked_const (c : GenCtx) (s : GenState)
    (h : ∀ r j, input_text_mask c.g0 c.L.pad_id r j = true → s.tokens r j = c.g0 r j) :
    ∀ r j, input_text_mask c.g0 c.L.pad_id r j = true →
      (decodeStep c s).tokens r j = c.g0 r j := by
  intro r j hm
  rw [decodeStep_tokens]
  by_cases hc : r < c.bsz ∧ j = s.cur_pos
  · rw [if_pos hc]
    obtain ⟨hr, hj⟩ := hc
    subst hj
    unfold stepNext
    rw [if_pos hm]
    exact h r s.cur_pos hm
  · rw [if_neg hc]; exact h r j hm

lemma decodeLoop_masked_const (c : GenCtx) : ∀ (fuel : Nat) (s : GenState),
    (∀ r j, input_text_mask c.g0 c.L.pad_id r j = true → s.tokens r j = c.g0 r j) →
    ∀ r j, input_text_mask c.g0 c.L.pad_id r j = true →
      (decodeLoop c fuel s).tokens r j = c.g0 r j := by
  intro fuel
  induction fuel with
  | zero => intro s h; exact h
  | succ n ih =>
    intro s h r j hm
    simp only [decodeLoop]
    split_ifs with h1 h2
    · exact h r j hm
    · exact decodeStep_masked_const c s h r j hm
    · exact ih (decodeStep c s) (decodeStep_masked_const c s h) r j hm

lemma runLoop_prompt_preserved (L : Llama)
    (fwd : List (List Int) → Nat → List (List (List ℚ))) (us : Nat → ℚ)
    (ps : List (List Int)) (mgl : Nat) (temp topp : ℚ) (lp : Bool)
    (hnopad : ∀ t ∈ ps, L.pad_id ∉ t) :
    ∀ r j, r < ps.length → j < (ps.getD r []).length →
      (runLoop L fwd us ps mgl temp topp lp).tokens r j = (ps.getD r []).getD j 0 := by
  intro r j hr hj
  have hval : (ps.getD r []).getD j 0 ≠ L.pad_id := by
    have hmem1 : ps.getD r [] ∈ ps := by
      rw [List.getD_eq_getElem _ _ hr]; exact List.getElem_mem hr
    have hmem2 : (ps.getD r []).getD j 0 ∈ ps.getD r [] := by
      rw [List.getD_eq_getElem _ _ hj]; exact List.getElem_mem hj
    intro hEq
    exact hnopad _ hmem1 (hEq ▸ hmem2)
  have hg0 : initGridFun L.pad_id ps r j = (ps.getD r []).getD j 0 := by
    show (if j < (ps.getD r []).length then (ps.getD r []).getD j 0 else L.pad_id) =
      (ps.getD r []).getD j 0
    rw [if_pos hj]
  have hmask : input_text_mask (initGridFun L.pad_id ps) L.pad_id r j = true := by
    unfold input_text_mask
    rw [hg0]
    exact bne_iff_ne.2 hval
  have hpres := decodeLoop_masked_const (mkCtx L fwd us ps mgl temp topp lp)
    ((mkCtx L fwd us ps mgl temp topp lp).total_len - listMin (ps.map List.length))
    (initState (mkCtx L fwd us ps mgl temp topp lp) (listMin (ps.map List.length)))
    (fun _ _ _ => rfl) r j hmask
  exact hpres.trans hg0

/-- C2 (amended): for every row of the batch and every column strictly inside
that row's original prompt, the token grid still holds the caller-supplied
prompt token after the decoding loop finishes, regardless of the other rows'
lengths — provided no token of any caller-supplied prompt equals pad_id (the
mask is pad-derived, see the C10 theorem). -/
theorem generate_prompt_preserved (L : Llama)
    (fwd : List (List Int) → Nat → List (List (List ℚ))) (us : Nat → ℚ)
    (prompts : List (List Int)) (mgl : Nat) (temp topp : ℚ) (lp : Bool) (st : GenState)
    (hok : generateState L fwd us prompts mgl temp topp lp = .ok st)
    (hnopad : ∀ t ∈ prompts, L.pad_id ∉ t) :
    ∀ r j, r < prompts.length → j < (prompts.getD r []).length →
      st.tokens r j = (prompts.getD r []).getD j 0 := by
  intro r j hr hj
  rw [generateState_ok_inv L fwd us prompts mgl temp topp lp st hok]
  exact runLoop_prompt_preserved L fwd us prompts mgl temp topp lp hnopad r j hr hj

/-- C2 (counterexample): with the batch `[[5], [7, -1, 9]]` where `-1` is
pad_id, the interior prompt position `(1,1)` is unmasked (its token equals
pad_id) and is overwritten with the sampled token `3` by the first decoding
step, so the grid no longer equals the caller-supplied prompt there. -/
theorem generate_prompt_preserved_cex :
    generateState testL fwdArg3 usZero [[5], [7, -1, 9]] 1 0 1 false = .ok c2St ∧
    (([[5], [7, -1, 9]] : List (List Int)).getD 1 []).getD 1 0 = -1 ∧
    c2St.tokens 1 1 = 3 ∧ (3 : Int) ≠ -1 :=
  ⟨rfl, by decide, by decide, by decide⟩

/-- Witness for C2 (amended) at the pad-free batch `[[5], [7, 8, 9]]`: the short
and the long prompt share the batch and the long prompt's interior token `8`
survives the steps that decode the short row. -/
theorem generate_prompt_preserved_witness :
    c2wSt.tokens 1 1 = (([[5], [7, 8, 9]] : List (List Int)).getD 1 []).getD 1 0 :=
  generate_prompt_preserved testL fwdArg3 usZero [[5], [7, 8, 9]] 1 0 1 false c2wSt rfl
    (by decide) 1 1 (by decide) (by decide)

lemma decodeStep_eos_mono (c : GenCtx) (s : GenState) (r : Nat)
    (h : s.eos r = true) : (decodeStep c s).eos r = true := by
  rw [decodeStep_eos]
  by_cases hr : r < c.bsz
  · rw [if_pos hr, h, Bool.true_or]
  · rw [if_neg hr]; exact h

lemma decodeLoop_eos_mono (c : GenCtx) : ∀ (fuel : Nat) (s : GenState) (r : Nat),
    s.eos r = true → (decodeLoop c fuel s).eos r = true := by
  intro fuel
  induction fuel with
  | zero => intro s r h; exact h
  | succ n ih =>
    intro s r h
    simp only [decodeLoop]
    split_ifs with h1 h2
    · exact h
    · exact decodeStep_eos_mono c s r h
    · exact ih (decodeStep c s) r (decodeStep_eos_mono c s r h)

/-- C9 (amended): the per-row EOS-reached flag is monotone — one decoding step
sets it to the disjunction of its old value with "this column is unmasked and
the realized token equals the end marker", and the loop never resets it; the
loop exits early exactly when every row's flag is true after a step, and the
two loop equations below are its only control flow (so early exit is the only
early-termination mechanism).  Proviso forced by the counterexample: "outside
that row's original prompt" is measured by the pad-derived input-position mask;
the two notions coincide exactly when no prompt token equals pad_id (part 3). -/
theorem eos_flag_monotone :
    (∀ (c : GenCtx) (s : GenState) (r : Nat), r < c.bsz →
      (decodeStep c s).eos r =
        (s.eos r ||
          ((!(input_text_mask c.g0 c.L.pad_id r s.cur_pos)) &&
            (stepNext c s r == c.L.eos_id)))) ∧
    (∀ (c : GenCtx) (fuel : Nat) (s : GenState) (r : Nat),
      s.eos r = true → (decodeLoop c fuel s).eos r = true) ∧
    (∀ (L : Llama) (prompts : List (List Int)) (r j : Nat),
      (∀ t ∈ prompts, L.pad_id ∉ t) →
      (input_text_mask (initGridFun L.pad_id prompts) L.pad_id r j = false ↔
        (prompts.getD r []).length ≤ j)) ∧
    (∀ (c : GenCtx) (fuel : Nat) (s : GenState), s.cur_pos < c.total_len →
      (allEos c.bsz (decodeStep c s) = true →
        decodeLoop c (fuel + 1) s = decodeStep c s) ∧
      (allEos c.bsz (decodeStep c s) = false →
        decodeLoop c (fuel + 1) s = decodeLoop c fuel (decodeStep c s))) := by
  refine ⟨?_, decodeLoop_eos_mono, ?_, ?_⟩
  · intro c s r hr
    rw [decodeStep_eos, if_pos hr]
  · intro L prompts r j hnopad
    unfold input_text_mask
    by_cases hj : j < (prompts.getD r []).length
    · have hg0 : initGridFun L.pad_id prompts r j = (prompts.getD r []).getD j 0 := by
        show (if j < (prompts.getD r []).length then (prompts.getD r []).getD j 0
          else L.pad_id) = (prompts.getD r []).getD j 0
        rw [if_pos hj]
      have hmem1 : prompts.getD r [] ∈ prompts := by
        by_cases hr : r < prompts.length
        · rw [List.getD_eq_getElem _ _ hr]; exact List.getElem_mem hr
        · exfalso
          rw [List.getD_eq_default _ _ (not_lt.1 hr)] at hj
          simp at hj
      have hval : (prompts.getD r []).getD j 0 ≠ L.pad_id := by
        have hmem2 : (prompts.getD r []).getD j 0 ∈ prompts.getD r [] := by
          rw [List.getD_eq_getElem _ _ hj]; exact List.getElem_mem hj
        intro hEq
        exact hnopad _ hmem1 (hEq ▸ hmem2)
      rw [hg0]
      constructor
      · intro hfalse
        exact absurd (bne_eq_false_iff_eq.1 hfalse) hval
      · intro hle; omega
    · have hg0 : initGridFun L.pad_id prompts r j = L.pad_id := by
        show (if j < (prompts.getD r []).length then (prompts.getD r []).getD j 0
          else L.pad_id) = L.pad_id
        rw [if_neg hj]
      rw [hg0]
      constructor
      · intro _; omega
      · intro _; exact bne_self_eq_false L.pad_id
  · intro c fuel s h1
    constructor
    · intro h2
      simp only [decodeLoop]
      rw [if_neg (not_le.2 h1), if_pos h2]
    · intro h2
      simp only [decodeLoop]
      rw [if_neg (not_le.2 h1), if_neg (by rw [h2]; exact Bool.false_ne_true)]

/-- C9 (counterexample): in the run on `[[5], [7, -1]]` with the end marker as
argmax, row 1's EOS flag becomes true at column 1 — a column strictly inside
its 2-token original prompt (its token is pad_id, so the mask treats it as
generatable) — even though the grid (of width `total_len = 2`) has no column
outside that prompt at all. -/
theorem eos_flag_cex :
    generateState testL fwdEos usZero [[5], [7, -1]] 0 0 1 false = .ok c9St ∧
    c9St.eos 1 = true ∧
    (([[5], [7, -1]] : List (List Int)).getD 1 []).length = 2 ∧
    (mkCtx testL fwdEos usZero [[5], [7, -1]] 0 0 1 false).total_len = 2 :=
  ⟨rfl, by decide, by decide, by decide⟩

/-- Witness for C9 (amended): each conjunct applied at a concrete context,
state and row. -/
theorem eos_flag_monotone_witness :
    ((decodeStep c9Ctx c9S0).eos 1 =
      (c9S0.eos 1 ||
        ((!(input_text_mask c9Ctx.g0 c9Ctx.L.pad_id 1 c9S0.cur_pos)) &&
          (stepNext c9Ctx c9S0 1 == c9Ctx.L.eos_id)))) ∧
    (decodeLoop c9Ctx 5 c9SAll).eos 0 = true ∧
    (input_text_mask (initGridFun testL.pad_id [[5], [7, 8]]) testL.pad_id 0 1 = false ↔
      (([[5], [7, 8]] : List (List Int)).getD 0 []).length ≤ 1) ∧
    (decodeLoop c9Ctx (0 + 1) c9S0 = decodeStep c9Ctx c9S0) :=
  ⟨eos_flag_monotone.1 c9Ctx c9S0 1 (by decide),
   eos_flag_monotone.2.1 c9Ctx 5 c9SAll 0 rfl,
   eos_flag_monotone.2.2.1 testL [[5], [7, 8]] 0 1 (by decide),
   (eos_flag_monotone.2.2.2 c9Ctx 0 c9S0 (by decide)).1 (by decide)⟩

/-- C10: the input-position mask in `generate` is derived by comparing the
initialized token grid against pad_id (`tokens != pad_id`), not from the
per-row prompt lengths: (1) a position inside a caller-supplied prompt whose
token equals pad_id is unmasked, i.e. treated as a generatable position; (2) at
any unmasked column the decoding step overwrites the grid with the sampled
candidate and lets that candidate trigger the EOS-reached flag; (3) hence the
prompt-preservation invariant holds under the precondition that no prompt token
equals pad_id. -/
theorem mask_pad_derived :
    (∀ (pad : Int) (prompts : List (List Int)) (r j : Nat),
      j < (prompts.getD r []).length → (prompts.getD r []).getD j 0 = pad →
      input_text_mask (initGridFun pad prompts) pad r j = false) ∧
    (∀ (c : GenCtx) (s : GenState) (r : Nat), r < c.bsz →
      input_text_mask c.g0 c.L.pad_id r s.cur_pos = false →
      (decodeStep c s).tokens r s.cur_pos = stepCand c s r ∧
      (decodeStep c s).eos r = (s.eos r || (stepCand c s r == c.L.eos_id))) ∧
    (∀ (L : Llama) (fwd : List (List Int) → Nat → List (List (List ℚ)))
      (us : Nat → ℚ) (prompts : List (List Int)) (mgl : Nat)
      (temp topp : ℚ) (lp : Bool) (st : GenState),
      generateState L fwd us prompts mgl temp topp lp = .ok st →
      (∀ t ∈ prompts, L.pad_id ∉ t) →
      ∀ r j, r < prompts.length → j < (prompts.getD r []).length →
        st.tokens r j = (prompts.getD r []).getD j 0) := by
  refine ⟨?_, ?_, ?_⟩
  · intro pad prompts r j hj hEq
    unfold input_text_mask
    have hg0 : initGridFun pad prompts r j = pad := by
      show (if j < (prompts.getD r []).length then (prompts.getD r []).getD j 0
        else pad) = pad
      rw [if_pos hj, hEq]
    rw [hg0]
    exact bne_self_eq_false pad
  · intro c s r hr hm
    have hnext : stepNext c s r = stepCand c s r := by
      unfold stepNext
      rw [if_neg (by rw [hm]; exact Bool.false_ne_true)]
    constructor
    · rw [decodeStep_tokens, if_pos ⟨hr, rfl⟩, hnext]
    · rw [decodeStep_eos, if_pos hr, hm, hnext]
      simp
  · intro L fwd us prompts mgl temp topp lp st hok hnopad r j hr hj
    rw [generateState_ok_inv L fwd us prompts mgl temp topp lp st hok]
    exact runLoop_prompt_preserved L fwd us prompts mgl temp topp lp hnopad r j hr hj

/-- Witness for C10: part 1 at the pad-bearing batch `[[6], [8, -1, 4]]`; part 2
at the first decoding step of that batch's run; part 3 at the pad-free batch
`[[6], [8, 7, 4]]`. -/
theorem mask_pad_derived_witness :
    input_text_mask (initGridFun (-1) [[6], [8, -1, 4]]) (-1) 1 1 = false ∧
    (decodeStep c10Ctx c10S0).tokens 1 c10S0.cur_pos = stepCand c10Ctx c10S0 1 ∧
    c10wSt.tokens 1 1 = (([[6], [8, 7, 4]] : List (List Int)).getD 1 []).getD 1 0 :=
  ⟨mask_pad_derived.1 (-1) [[6], [8, -1, 4]] 1 1 (by decide) (by decide),
   (mask_pad_derived.2.1 c10Ctx c10S0 1 (by decide) (by decide)).1,
   mask_pad_derived.2.2 testL fwdArg3 usZero [[6], [8, 7, 4]] 1 0 1 false c10wSt rfl
     (by decide) 1 1 (by decide) (by decide)⟩

/-- C1 (amended): when every prompt already fills the whole allotted length
(`min_prompt_len = total_len`), the decoding loop body never runs — the token
grid stays exactly the initialized prompt grid — and the logprob grid is
populated from the single full-width scoring pass `fwd(tokens, 0)` with the
per-position negative cross-entropy of the token at that SAME column (the
source's `target=tokens`, not the token at the following column), positions
whose token equals pad_id being ignored as zero. -/
theorem generate_full_prompt_logprobs (L : Llama)
    (fwd : List (List Int) → Nat → List (List (List ℚ))) (us : Nat → ℚ)
    (prompts : List (List Int)) (mgl : Nat) (temp topp : ℚ) (lp : Bool) (st : GenState)
    (hok : generateState L fwd us prompts mgl temp topp lp = .ok st)
    (hmin : listMin (prompts.map List.length) =
      (mkCtx L fwd us prompts mgl temp topp lp).total_len) :
    (∀ r j, st.tokens r j = initGridFun L.pad_id prompts r j) ∧
    (∀ r j, st.logps r j =
      if initGridFun L.pad_id prompts r j = L.pad_id then 0
      else
        -(L.ceLoss
          (((fwd (gridRows prompts.length
              (mkCtx L fwd us prompts mgl temp topp lp).total_len
              (initGridFun L.pad_id prompts)) 0).getD r []).getD j [])
          (initGridFun L.pad_id prompts r j))) := by
  have hst := generateState_ok_inv L fwd us prompts mgl temp topp lp st hok
  subst hst
  unfold runLoop
  rw [hmin, Nat.sub_self]
  simp only [decodeLoop]
  constructor
  · intro r j; rfl
  · intro r j
    simp only [initState, eq_self_iff_true, if_true]
    rfl

/-- C1 (counterexample): in the full-prompt special case the code scores each
position against the token at that SAME column (`target=tokens`, source lines
254-259), not against the known next token at the following column as the claim
states: on the prompt `[3, 4]` (with a cross-entropy kernel returning the target
id) the stored value at position 0 is `-3`, while the spec-described
next-column grid holds `-4` there. -/
theorem generate_full_prompt_logprobs_cex :
    generateState testL fwdArg3 usZero [[3, 4]] 0 0 1 true = .ok c1St ∧
    c1St.logps 0 0 = -3 ∧
    specNextColumnGrid c1Ctx 0 0 = -4 ∧
    c1St.logps 0 0 ≠ specNextColumnGrid c1Ctx 0 0 :=
  ⟨rfl, by decide, by decide, by decide⟩

/-- Witness for C1 (amended) on the full-width prompt `[3, 4]`. -/
theorem generate_full_prompt_logprobs_witness :
    c1St.tokens 0 0 = initGridFun testL.pad_id [[3, 4]] 0 0 ∧
    c1St.logps 0 1 =
      (if initGridFun testL.pad_id [[3, 4]] 0 1 = testL.pad_id then 0
       else
        -(testL.ceLoss
          (((fwdArg3 (gridRows ([[3, 4]] : List (List Int)).length
              (mkCtx testL fwdArg3 usZero [[3, 4]] 0 0 1 true).total_len
              (initGridFun testL.pad_id [[3, 4]])) 0).getD 0 []).getD 1 [])
          (initGridFun testL.pad_id [[3, 4]] 0 1))) :=
  ⟨(generate_full_prompt_logprobs testL fwdArg3 usZero [[3, 4]] 0 0 1 true c1St rfl
      (by decide)).1 0 0,
   (generate_full_prompt_logprobs testL fwdArg3 usZero [[3, 4]] 0 0 1 true c1St rfl
      (by decide)).2 0 1⟩

lemma getD_range_map {β : Type _} (f : Nat → β) (n i : Nat) (d : β) (h : i < n) :
    ((List.range n).map f).getD i d = f i := by
  rw [List.getD_eq_getElem _ _ (by simpa using h)]
  simp

lemma idxOf?_lt (e : Int) : ∀ (l : List Int) (k : Nat), idxOf? e l = some k → k < l.length := by
  intro l
  induction l with
  | nil => intro k h; simp [idxOf?] at h
  | cons a rest ih =>
    intro k h
    unfold idxOf? at h
    by_cases ha : a = e
    · rw [if_pos ha] at h
      have h0 : 0 = k := Option.some.inj h
      simp [← h0]
    · rw [if_neg ha] at h
      cases hr : idxOf? e rest with
      | none => rw [hr] at h; simp at h
      | some k' =>
        rw [hr] at h
        simp only [Option.map_some'] at h
        have hk := Option.some.inj h
        have := ih k' hr
        simp [← hk]
        omega

lemma idxOf?_none_not_mem (e : Int) : ∀ l, idxOf? e l = none → e ∉ l := by
  intro l
  induction l with
  | nil => intro _ h; exact (List.not_mem_nil e) h
  | cons a rest ih =>
    intro h hmem
    unfold idxOf? at h
    by_cases ha : a = e
    · rw [if_pos ha] at h; exact Option.noConfusion h
    · rw [if_neg ha] at h
      rcases List.mem_cons.1 hmem with h1 | h1
      · exact ha h1.symm
      · cases hr : idxOf? e rest with
        | none => exact ih hr h1
        | some k' => rw [hr] at h; simp at h

lemma idxOf?_take_not_mem (e : Int) : ∀ (l : List Int) (k : Nat),
    idxOf? e l = some k → e ∉ l.take k := by
  intro l
  induction l with
  | nil => intro k h; simp [idxOf?] at h
  | cons a rest ih =>
    intro k h
    unfold idxOf? at h
    by_cases ha : a = e
    · rw [if_pos ha] at h
      have h0 : 0 = k := Option.some.inj h
      rw [← h0]
      exact List.not_mem_nil e
    · rw [if_neg ha] at h
      cases hr : idxOf? e rest with
      | none => rw [hr] at h; simp at h
      | some k' =>
        rw [hr] at h
        simp only [Option.map_some'] at h
        have hk := Option.some.inj h
        rw [← hk, List.take_succ_cons]
        intro hmem
        rcases List.mem_cons.1 hmem with h1 | h1
        · exact ha h1.symm
        · exact ih k' hr h1

lemma eosCut_length_le (eid : Int) (toks : List Int) (lps : List ℚ) :
    ((eosCut eid toks lps).1).length ≤ toks.length := by
  unfold eosCut
  split
  · simp [List.length_take]
  · exact le_refl _

lemma eosCut_fst_not_mem (eid : Int) (toks : List Int) (lps : List ℚ) :
    eid ∉ (eosCut eid toks lps).1 := by
  unfold eosCut
  split
  · next k hk => exact idxOf?_take_not_mem eid toks k hk
  · next hk => exact idxOf?_none_not_mem eid toks hk

lemma eosCut_snd_take (eid : Int) (toks : List Int) (lps : List ℚ)
    (hlen : lps.length = toks.length) :
    (eosCut eid toks lps).2 = lps.take ((eosCut eid toks lps).1).length := by
  unfold eosCut
  split
  · next k hk =>
    have hk' : k < toks.length := idxOf?_lt eid toks k hk
    simp [List.length_take, Nat.min_eq_left (le_of_lt hk')]
  · next hk =>
    rw [← hlen]
    exact (List.take_length lps).symm

/-- C3: for every row of the result of `generate` with `echo = false`, the
returned token list is the slice of that row starting at its prompt length,
limited to `max_gen_len` entries (so its length is at most `max_gen_len`), with
the slice (and the logprob slice, when requested) truncated immediately before
the first occurrence of the end marker — in particular the end marker never
occurs in the returned tokens. -/
theorem generate_output_trimmed (L : Llama)
    (fwd : List (List Int) → Nat → List (List (List ℚ))) (us : Nat → ℚ)
    (prompts : List (List Int)) (mgl : Nat) (temp topp : ℚ) (lp : Bool) (st : GenState)
    (outs : List (List Int)) (olps : Option (List (List ℚ)))
    (hst : generateState L fwd us prompts mgl temp topp lp = .ok st)
    (hok : generate L fwd us prompts mgl temp topp lp false = .ok (outs, olps))
    (r : Nat) (hr : r < prompts.length) :
    (outs.getD r []).length ≤ mgl ∧
    L.eos_id ∉ outs.getD r [] ∧
    outs.getD r [] =
      (eosCut L.eos_id
        ((((List.range (mkCtx L fwd us prompts mgl temp topp lp).total_len).map
            (fun j => st.tokens r j)).drop (prompts.getD r []).length).take mgl)
        ((((List.range (mkCtx L fwd us prompts mgl temp topp lp).total_len).map
            (fun j => st.logps r j)).drop (prompts.getD r []).length).take mgl)).1 ∧
    (∀ ls, olps = some ls →
      ls.getD r [] =
        ((((List.range (mkCtx L fwd us prompts mgl temp topp lp).total_len).map
            (fun j => st.logps r j)).drop (prompts.getD r []).length).take mgl).take
          (outs.getD r []).length) := by
  unfold generate at hok
  rw [hst] at hok
  simp only [Except.map] at hok
  have hpair := Except.ok.inj hok
  have h1 := congrArg Prod.fst hpair
  have h2 := congrArg Prod.snd hpair
  simp only at h1 h2
  have hout : outs.getD r [] =
      (trimRow L.eos_id false ((prompts.getD r []).length) mgl
        ((List.range (mkCtx L fwd us prompts mgl temp topp lp).total_len).map
          (fun j => st.tokens r j))
        ((List.range (mkCtx L fwd us prompts mgl temp topp lp).total_len).map
          (fun j => st.logps r j))).1 := by
    rw [← h1, List.map_map]
    exact getD_range_map _ _ r [] hr
  have htrim : (trimRow L.eos_id false ((prompts.getD r []).length) mgl
        ((List.range (mkCtx L fwd us prompts mgl temp topp lp).total_len).map
          (fun j => st.tokens r j))
        ((List.range (mkCtx L fwd us prompts mgl temp topp lp).total_len).map
          (fun j => st.logps r j))) =
      eosCut L.eos_id
        ((((List.range (mkCtx L fwd us prompts mgl temp topp lp).total_len).map
            (fun j => st.tokens r j)).drop (prompts.getD r []).length).take mgl)
        ((((List.range (mkCtx L fwd us prompts mgl temp topp lp).total_len).map
            (fun j => st.logps r j)).drop (prompts.getD r []).length).take mgl) := by
    unfold trimRow
    rw [if_neg Bool.false_ne_true]
    simp only [Nat.add_sub_cancel_left]
  have houtcut := hout.trans (congrArg Prod.fst htrim)
  refine ⟨?_, ?_, houtcut, ?_⟩
  · rw [houtcut]
    refine le_trans (eosCut_length_le _ _ _) ?_
    simp [List.length_take]
  · rw [houtcut]
    exact eosCut_fst_not_mem _ _ _
  · intro ls hls
    by_cases hlp : lp = true
    · subst hlp
      rw [if_pos rfl] at h2
      rw [← h2] at hls
      have hls' := Option.some.inj hls
      rw [← hls', List.map_map]
      have hgd : ((List.range (mkCtx L fwd us prompts mgl temp topp true).bsz).map
          (Prod.snd ∘ fun r => trimRow L.eos_id false ((prompts.getD r []).length) mgl
            ((List.range (mkCtx L fwd us prompts mgl temp topp true).total_len).map
              (fun j => st.tokens r j))
            ((List.range (mkCtx L fwd us prompts mgl temp topp true).total_len).map
              (fun j => st.logps r j)))).getD r [] =
          (trimRow L.eos_id false ((prompts.getD r []).length) mgl
            ((List.range (mkCtx L fwd us prompts mgl temp topp true).total_len).map
              (fun j => st.tokens r j))
            ((List.range (mkCtx L fwd us prompts mgl temp topp true).total_len).map
              (fun j => st.logps r j))).2 :=
        getD_range_map _ _ r [] hr
      rw [hgd, htrim]
      rw [eosCut_snd_take _ _ _ (by simp), houtcut]
    · have hlpf : lp = false := by
        cases lp
        · rfl
        · exact absurd rfl hlp
      subst hlpf
      rw [if_neg Bool.false_ne_true] at h2
      rw [← h2] at hls
      exact Option.noConfusion hls

/-- Witness for C3 on the run `generate testL fwdEos usZero [[5], [7, 8]] 2`
with logprobs requested: the argmax token is the end marker, so row 0's output
is empty — within bounds, free of the end marker, and aligned with its logprob
slice. -/
theorem generate_output_trimmed_witness :
    (([[], []] : List (List Int)).getD 0 []).length ≤ 2 ∧
    testL.eos_id ∉ ([[], []] : List (List Int)).getD 0 [] ∧
    ([[], []] : List (List Int)).getD 0 [] =
      (eosCut testL.eos_id
        ((((List.range (mkCtx testL fwdEos usZero [[5], [7, 8]] 2 0 1 true).total_len).map
            (fun j => c3St.tokens 0 j)).drop
              ((([[5], [7, 8]] : List (List Int)).getD 0 []).length)).take 2)
        ((((List.range (mkCtx testL fwdEos usZero [[5], [7, 8]] 2 0 1 true).total_len).map
            (fun j => c3St.logps 0 j)).drop
              ((([[5], [7, 8]] : List (List Int)).getD 0 []).length)).take 2)).1 ∧
    (∀ ls, (some [[], []] : Option (List (List ℚ))) = some ls →
      ls.getD 0 [] =
        ((((List.range (mkCtx testL fwdEos usZero [[5], [7, 8]] 2 0 1 true).total_len).map
            (fun j => c3St.logps 0 j)).drop
              ((([[5], [7, 8]] : List (List Int)).getD 0 []).length)).take 2).take
          ((([[], []] : List (List Int)).getD 0 []).length)) :=
  generate_output_trimmed testL fwdEos usZero [[5], [7, 8]] 2 0 1 true c3St
    [[], []] (some [[], []]) rfl rfl 0 (by decide)

lemma stepCand_temp_zero (c : GenCtx) (s : GenState) (r : Nat)
    (h : c.temperature = 0) :
    stepCand c s r = argmaxIdx (lastLogitsRow c s r) := by
  unfold stepCand
  rw [if_neg (by rw [h]; exact lt_irrefl 0)]

lemma stepNext_us (L : Llama) (fwd : List (List Int) → Nat → List (List (List ℚ)))
    (u1 u2 : Nat → ℚ) (ps : List (List Int)) (mgl : Nat) (topp : ℚ) (lp : Bool)
    (s : GenState) (r : Nat) :
    stepNext (mkCtx L fwd u1 ps mgl 0 topp lp) s r =
      stepNext (mkCtx L fwd u2 ps mgl 0 topp lp) s r := by
  unfold stepNext
  rw [stepCand_temp_zero _ _ _ rfl, stepCand_temp_zero _ _ _ rfl]
  rfl

lemma decodeStep_us (L : Llama) (fwd : List (List Int) → Nat → List (List (List ℚ)))
    (u1 u2 : Nat → ℚ) (ps : List (List Int)) (mgl : Nat) (topp : ℚ) (lp : Bool)
    (s : GenState) :
    decodeStep (mkCtx L fwd u1 ps mgl 0 topp lp) s =
      decodeStep (mkCtx L fwd u2 ps mgl 0 topp lp) s := by
  have hL : (mkCtx L fwd u1 ps mgl 0 topp lp).L = (mkCtx L fwd u2 ps mgl 0 topp lp).L := rfl
  have hb : (mkCtx L fwd u1 ps mgl 0 topp lp).bsz = (mkCtx L fwd u2 ps mgl 0 topp lp).bsz := rfl
  have hg : (mkCtx L fwd u1 ps mgl 0 topp lp).g0 = (mkCtx L fwd u2 ps mgl 0 topp lp).g0 := rfl
  have hlp : (mkCtx L fwd u1 ps mgl 0 topp lp).logprobs =
    (mkCtx L fwd u2 ps mgl 0 topp lp).logprobs := rfl
  have hf : ∀ s', fwdSlice (mkCtx L fwd u1 ps mgl 0 topp lp) s' =
      fwdSlice (mkCtx L fwd u2 ps mgl 0 topp lp) s' := fun _ => rfl
  have hn : ∀ r, stepNext (mkCtx L fwd u1 ps mgl 0 topp lp) s r =
      stepNext (mkCtx L fwd u2 ps mgl 0 topp lp) s r :=
    fun r => stepNext_us L fwd u1 u2 ps mgl topp lp s r
  unfold decodeStep
  rw [hL, hb, hg, hlp, hf]
  simp only [hn]

lemma decodeLoop_us (L : Llama) (fwd : List (List Int) → Nat → List (List (List ℚ)))
    (u1 u2 : Nat → ℚ) (ps : List (List Int)) (mgl : Nat) (topp : ℚ) (lp : Bool) :
    ∀ (fuel : Nat) (s : GenState),
    decodeLoop (mkCtx L fwd u1 ps mgl 0 topp lp) fuel s =
      decodeLoop (mkCtx L fwd u2 ps mgl 0 topp lp) fuel s := by
  intro fuel
  induction fuel with
  | zero => intro s; rfl
  | succ n ih =>
    intro s
    have htot : (mkCtx L fwd u1 ps mgl 0 topp lp).total_len =
      (mkCtx L fwd u2 ps mgl 0 topp lp).total_len := rfl
    have hb : (mkCtx L fwd u1 ps mgl 0 topp lp).bsz =
      (mkCtx L fwd u2 ps mgl 0 topp lp).bsz := rfl
    simp only [decodeLoop]
    rw [htot, hb, decodeStep_us L fwd u1 u2 ps mgl topp lp s, ih]

/-- C5: `generate` with `temperature = 0` is deterministic: the scoring model is
a function (identical inputs give identical logits), and the result does not
depend on the stream of uniform samples feeding the nucleus sampler — no
sampling randomness is consumed; moreover, at `temperature = 0` the next-token
candidate of every decoding step is the argmax of the last scored column's
logits. -/
theorem generate_temp_zero_deterministic :
    (∀ (L : Llama) (fwd : List (List Int) → Nat → List (List (List ℚ)))
      (us1 us2 : Nat → ℚ) (prompts : List (List Int)) (mgl : Nat) (topp : ℚ)
      (lp echo : Bool),
      generate L fwd us1 prompts mgl 0 topp lp echo =
        generate L fwd us2 prompts mgl 0 topp lp echo) ∧
    (∀ (c : GenCtx) (s : GenState) (r : Nat), c.temperature = 0 →
      stepCand c s r = argmaxIdx (lastLogitsRow c s r)) := by
  constructor
  · intro L fwd us1 us2 prompts mgl topp lp echo
    have hstate : generateState L fwd us1 prompts mgl 0 topp lp =
        generateState L fwd us2 prompts mgl 0 topp lp := by
      unfold generateState runLoop
      have hinit : initState (mkCtx L fwd us1 prompts mgl 0 topp lp)
          (listMin (prompts.map List.length)) =
        initState (mkCtx L fwd us2 prompts mgl 0 topp lp)
          (listMin (prompts.map List.length)) := rfl
      have htot : (mkCtx L fwd us1 prompts mgl 0 topp lp).total_len =
        (mkCtx L fwd us2 prompts mgl 0 topp lp).total_len := rfl
      rw [hinit, htot, decodeLoop_us L fwd us1 us2 prompts mgl topp lp]
    unfold generate
    rw [hstate]
    rfl
  · intro c s r h
    exact stepCand_temp_zero c s r h

/-- Witness for C5: two different uniform streams on the batch `[[5]]`, and the
argmax characterization at a concrete step. -/
theorem generate_temp_zero_deterministic_witness :
    generate testL fwdArg3 usZero [[5]] 1 0 1 false false =
      generate testL fwdArg3 (fun n => (n : ℚ)) [[5]] 1 0 1 false false ∧
    stepCand c10Ctx c10S0 1 = argmaxIdx (lastLogitsRow c10Ctx c10S0 1) :=
  ⟨generate_temp_zero_deterministic.1 testL fwdArg3 usZero (fun n => (n : ℚ))
      [[5]] 1 1 false false,
   generate_temp_zero_deterministic.2 c10Ctx c10S0 1 rfl⟩

lemma chatPromptTokens_flags (L : Llama) :
    ∀ (dialogs : List (List Message)) (pts : List (List Int)) (flags : List Bool),
    chatPromptTokens L dialogs = .ok (pts, flags) →
    flags = dialogs.map tagged ∧ pts.length = dialogs.length := by
  intro dialogs
  induction dialogs with
  | nil =>
    intro pts flags h
    simp only [chatPromptTokens] at h
    have hp := Except.ok.inj h
    have h1 := congrArg Prod.fst hp
    have h2 := congrArg Prod.snd hp
    simp only at h1 h2
    constructor
    · rw [← h2]; rfl
    · rw [← h1]; rfl
  | cons d rest ih =>
    intro pts flags h
    unfold chatPromptTokens at h
    cases hv : validateDialog d with
    | error e => rw [hv] at h; exact Except.noConfusion h
    | ok d' =>
      rw [hv] at h
      cases hrec : chatPromptTokens L rest with
      | error e => rw [hrec] at h; exact Except.noConfusion h
      | ok pr =>
        obtain ⟨pts', flags'⟩ := pr
        rw [hrec] at h
        have hp := Except.ok.inj h
        have h1 := congrArg Prod.fst hp
        have h2 := congrArg Prod.snd hp
        simp only at h1 h2
        obtain ⟨hf', hl'⟩ := ih pts' flags' hrec
        constructor
        · rw [← h2, hf']; rfl
        · rw [← h1]; simp [hl']

lemma zipRecords_getD (L : Llama) :
    ∀ (ts : List (List Int)) (gs : List (List ℚ)) (fl : List Bool) (i : Nat),
    i < ts.length → i < gs.length → i < fl.length →
    (zipRecords L ts gs fl).getD i dRec =
      { generation :=
          { role := Role.assistant,
            content := if fl.getD i false then UNSAFE_ERROR else L.decode (ts.getD i []) },
        tokens := some ((ts.getD i []).map (fun x => L.decode [x])),
        logprobs := some (gs.getD i []) } := by
  intro ts
  induction ts with
  | nil => intro gs fl i hi; simp at hi
  | cons t ts' ih =>
    intro gs fl i hi hg hf
    cases gs with
    | nil => simp at hg
    | cons g gs' =>
      cases fl with
      | nil => simp at hf
      | cons u fl' =>
        cases i with
        | zero => simp [zipRecords]
        | succ n =>
          simp only [zipRecords, List.getD_cons_succ]
          exact ih gs' fl' n (by simpa using hi) (by simpa using hg) (by simpa using hf)

lemma generate_ok_shape (L : Llama)
    (fwd : List (List Int) → Nat → List (List (List ℚ))) (us : Nat → ℚ)
    (ps : List (List Int)) (mgl : Nat) (temp topp : ℚ)
    (gts : List (List Int)) (glps : Option (List (List ℚ)))
    (h : generate L fwd us ps mgl temp topp true false = .ok (gts, glps)) :
    gts.length = ps.length ∧ ∃ ls, glps = some ls ∧ ls.length = ps.length := by
  unfold generate at h
  cases hg : generateState L fwd us ps mgl temp topp true with
  | error e => rw [hg] at h; exact Except.noConfusion h
  | ok st =>
    rw [hg] at h
    simp only [Except.map] at h
    have hp := Except.ok.inj h
    have h1 := congrArg Prod.fst hp
    have h2 := congrArg Prod.snd hp
    simp only at h1 h2
    simp only [eq_self_iff_true, if_true] at h2
    constructor
    · rw [← h1]; simp [mkCtx]
    · exact ⟨_, h2.symm, by simp [mkCtx]⟩

/-- C7: for every dialog batch accepted by `chat_completion` (with logprobs
requested), if a dialog's content contains one of the control tags, then its
unsafe flag is set, encoding and generation still proceed, and the returned
record's generation text equals the fixed refusal string while the `tokens` and
`logprobs` fields still reflect the actually generated sequence. -/
theorem chat_completion_flagged (L : Llama)
    (fwd : List (List Int) → Nat → List (List (List ℚ))) (us : Nat → ℚ)
    (dialogs : List (List Message)) (temp topp : ℚ) (mglOpt : Option Nat)
    (pts : List (List Int)) (flags : List Bool)
    (gts : List (List Int)) (glps : Option (List (List ℚ)))
    (recs : List ChatPrediction) (i : Nat)
    (hpt : chatPromptTokens L dialogs = .ok (pts, flags))
    (hg : generate L fwd us pts (mglOpt.getD (L.params.max_seq_len - 1)) temp topp
      true false = .ok (gts, glps))
    (hcc : chat_completion L fwd us dialogs temp topp mglOpt true = .ok recs)
    (hi : i < dialogs.length)
    (htag : tagged (dialogs.getD i []) = true) :
    flags.getD i false = true ∧
    recs.getD i dRec =
      { generation := { role := Role.assistant, content := UNSAFE_ERROR },
        tokens := some ((gts.getD i []).map (fun x => L.decode [x])),
        logprobs := some ((glps.getD []).getD i []) } := by
  obtain ⟨hflags, hplen⟩ := chatPromptTokens_flags L dialogs pts flags hpt
  obtain ⟨hgl, ls, hls, hlslen⟩ := generate_ok_shape L fwd us pts
    (mglOpt.getD (L.params.max_seq_len - 1)) temp topp gts glps hg
  have hfl : flags.getD i false = true := by
    rw [hflags, List.getD_eq_getElem _ _ (by simpa using hi), List.getElem_map]
    rw [List.getD_eq_getElem dialogs [] hi] at htag
    exact htag
  refine ⟨hfl, ?_⟩
  unfold chat_completion at hcc
  simp only [hpt, hg, eq_self_iff_true, if_true] at hcc
  have hrecs := Except.ok.inj hcc
  rw [← hrecs]
  have hb1 : i < gts.length := by rw [hgl, hplen]; exact hi
  have hb2 : i < (glps.getD []).length := by rw [hls]; simpa [hlslen, hplen] using hi
  have hb3 : i < flags.length := by rw [hflags]; simpa using hi
  rw [zipRecords_getD L gts (glps.getD []) flags i hb1 hb2 hb3, hfl]
  simp

/-- Witness for C7: a single one-message dialog whose user content embeds the
`[INST]` control tag; the returned text is the refusal string while the token
strings and logprobs reflect the generated token `0`. -/
theorem chat_completion_flagged_witness :
    ([true] : List Bool).getD 0 false = true ∧
    ([{ generation := { role := Role.assistant, content := UNSAFE_ERROR },
        tokens := some ["D"], logprobs := some [0] }] : List ChatPrediction).getD 0 dRec =
      { generation := { role := Role.assistant, content := UNSAFE_ERROR },
        tokens := some ((([[0]] : List (List Int)).getD 0 []).map
          (fun x => testL.decode [x])),
        logprobs := some (((some [[0]] : Option (List (List ℚ))).getD []).getD 0 []) } :=
  chat_completion_flagged testL fwdArg0 usZero c7Dialogs 0 1 (some 1)
    [[5]] [true] [[0]] (some [[0]])
    [{ generation := { role := Role.assistant, content := UNSAFE_ERROR },
        tokens := some ["D"], logprobs := some [0] }] 0
    rfl rfl rfl (by decide) (by decide)
